import Mathlib

/-!
Verification of the session bridge of `server/realtimestt.py`: a WebSocket
server that feeds inbound float32 audio to a RealtimeSTT recognition engine
and streams partial/final transcription events back to the client.

Shallow embedding conventions:
* float32 samples are modeled as exact rationals (every float32 value is a
  rational); the scale by 32767 is modeled exactly and the numpy
  `astype(np.int16)` cast as truncation toward zero (C-cast semantics);
* byte strings are `List ℕ` with each entry < 256;
* parsed JSON values are an inductive `Json`; a text frame carries an
  `Option Json` (`none` = `json.JSONDecodeError` on `json.loads`);
* the handler's receive loop, the recorder callbacks and the sender task are
  modeled as pure functions producing traces of observable actions, with the
  asyncio queue modeled as an explicit FIFO state machine.
-/

namespace WhisperMac

/-! ## Definitions

### Audio Frame Adapter (`float32_to_int16`) -/

/-- Truncation toward zero of a rational, the semantics of a C-style
float-to-integer cast (what numpy's `astype(np.int16)` performs on values
that fit in the target type). -/
def trunc (q : ℚ) : ℤ := if 0 ≤ q then ⌊q⌋ else -⌊-q⌋

/-- Two's-complement little-endian serialization of an integer as a 16-bit
value, as `np.int16(...).tobytes()` produces on a little-endian host.
Out-of-range values wrap modulo 2^16. -/
def i16_le_bytes (z : ℤ) : List ℕ :=
  [(z % 65536).toNat % 256, (z % 65536).toNat / 256]

/-- `float32_to_int16` from `server/realtimestt.py`:
`(audio_float32 * 32767).astype(np.int16).tobytes()` — scale each sample by
32767, cast to int16 (truncation toward zero), serialize little-endian. -/
def float32_to_int16 (samples : List ℚ) : List ℕ :=
  samples.flatMap fun s => i16_le_bytes (trunc (s * 32767))

/-- Decode two little-endian bytes as a 16-bit signed integer (the client's
view of the adapter's output). -/
def decode_i16_le : List ℕ → ℤ
  | [b0, b1] =>
    let u : ℤ := (b0 : ℤ) + 256 * (b1 : ℤ)
    if u < 32768 then u else u - 65536
  | _ => 0

/-- Modelled from the spec's wording of the Audio Frame Adapter ("maps to a
16-bit signed integer via `round(s * 32767)`, then is serialized
little-endian"), for refinement comparison against `float32_to_int16`. -/
def adapt_spec_round (samples : List ℚ) : List ℕ :=
  samples.flatMap fun s => i16_le_bytes (round (s * 32767))

/-! ### Parsed JSON values and the text-frame branch of `handler` -/

/-- A parsed JSON value, the possible results of `json.loads` on a text
frame. -/
inductive Json where
  | jnull : Json
  | jbool (b : Bool) : Json
  | jnum (q : ℚ) : Json
  | jstr (s : String) : Json
  | jarr (elems : List Json) : Json
  | jobj (fields : List (String × Json)) : Json

/-- Python truthiness of a JSON-decoded value (`if data.get("EOS"):`). -/
def truthy : Json → Bool
  | .jnull => false
  | .jbool b => b
  | .jnum q => if q = 0 then false else true
  | .jstr s => if s = "" then false else true
  | .jarr elems => !elems.isEmpty
  | .jobj fields => !fields.isEmpty

/-- `dict.get(key)`: the binding for `key` in a JSON object (a later duplicate
key overwrites an earlier one, as in Python's `json.loads`), or `none`
(Python `None`) when the key is absent. -/
def pyDictGet (fields : List (String × Json)) (k : String) : Option Json :=
  fields.foldl (fun acc kv => if kv.1 = k then some kv.2 else acc) none

/-- Truthiness of `dict.get`'s result: `None` is falsy. -/
def truthyOpt : Option Json → Bool
  | none => false
  | some j => truthy j

/-- Observable outcome of the text-frame branch of `handler`. -/
inductive TextOutcome where
  | stopCalled
  | noOp
  | ignoredMalformed
  | raisedAttrError
  deriving DecidableEq

/-- The text-frame branch of `handler`, on the result of `json.loads`:
`JSONDecodeError` is caught and logged; a dict answers the truthiness test
`data.get("EOS")` and may call `recorder.stop()`; any other parse result
makes `data.get` raise `AttributeError`, which nothing catches. -/
def handleText : Option Json → TextOutcome
  | none => .ignoredMalformed
  | some (.jobj fields) =>
      if truthyOpt (pyDictGet fields "EOS") then .stopCalled else .noOp
  | some _ => .raisedAttrError

/-! ### Python `str.strip()` and the recorder callbacks -/

/-- The characters Python's `str.isspace()` holds true of — exactly the set
`str.strip()` with no argument removes: ASCII whitespace U+0009–U+000D and
U+0020, the separators U+001C–U+001F, U+0085, U+00A0, U+1680, the typographic
spaces U+2000–U+200A, the line/paragraph separators U+2028 and U+2029, and
U+202F, U+205F, U+3000. -/
def pyIsSpace (c : Char) : Bool :=
  c ∈ [' ', '\t', '\n', '\x0b', '\x0c', '\r',
       '\x1c', '\x1d', '\x1e', '\x1f', '\x85', '\xa0',
       '\u1680', '\u2000', '\u2001', '\u2002', '\u2003', '\u2004',
       '\u2005', '\u2006', '\u2007', '\u2008', '\u2009', '\u200a',
       '\u2028', '\u2029', '\u202f', '\u205f', '\u3000']

/-- Python `text.strip()`: remove leading and trailing whitespace. -/
def pyStrip (s : String) : String :=
  ⟨((s.data.dropWhile pyIsSpace).reverse.dropWhile pyIsSpace).reverse⟩

/-- A transcription segment as built in `send_update_sync`. -/
structure Segment where
  segId : String
  segType : String
  text : String
  completed : Bool
  deriving DecidableEq

/-- The outbound JSON envelope built in `send_update_sync`. -/
structure OutboundMessage where
  uid : String
  segments : List Segment
  status : String
  deriving DecidableEq

/-- `send_update_sync` from `server/realtimestt.py`: wrap exactly one segment
together with the session's uid and a status derived from `completed`. The
generated `uuid.uuid4()` is abstracted as the `segId` argument. -/
def send_update_sync (uid segId segment_type text : String) (completed : Bool) :
    OutboundMessage :=
  { uid := uid
    segments := [{ segId := segId, segType := segment_type,
                   text := text, completed := completed }]
    status := if completed then "transforming" else "listening" }

/-- `on_realtime_update`: when the stripped text is non-empty (Python string
truthiness), enqueue an in-progress message; otherwise push nothing. -/
def on_realtime_update (uid segId text : String) : Option OutboundMessage :=
  if pyStrip text = "" then none
  else some (send_update_sync uid segId "inprogress" text false)

/-- `on_final_text_callback`: when the stripped text is non-empty, enqueue a
final (`transcribed`, completed) message; otherwise push nothing. -/
def on_final_text_callback (uid segId text : String) : Option OutboundMessage :=
  if pyStrip text = "" then none
  else some (send_update_sync uid segId "transcribed" text true)

/-! ### The receive loop and teardown of `handler` -/

/-- Python exceptions that can escape the body of the receive loop. -/
inductive PyErr where
  | valueError
  | attrError
  deriving DecidableEq

/-- An inbound WebSocket message: a binary audio frame (raw bytes) or a text
frame (carrying its `json.loads` outcome). The end of the event list models
the transport closing. -/
inductive InEvent where
  | bin (payload : List ℕ) : InEvent
  | text (p : Option Json) : InEvent

/-- Observable actions of a session, in execution order. `fedAudio` records a
`recorder.feed_audio` call with the raw frame that was decoded and adapted;
`joinWorker` records `recorder_thread.join` with its timeout in seconds. -/
inductive Action where
  | fedAudio (payload : List ℕ) : Action
  | stopRec : Action
  | logMalformed : Action
  | cancelSender : Action
  | shutdownRec : Action
  | joinWorker (timeoutSecs : ℕ) : Action
  deriving DecidableEq

/-- One iteration of the receive loop: the actions it performs, or the Python
exception that escapes it. A binary frame whose length is not a multiple of 4
(the float32 item size) makes `np.frombuffer` raise `ValueError`. -/
def processEvent : InEvent → Except PyErr (List Action)
  | .bin payload =>
      if payload.length % 4 = 0 then .ok [.fedAudio payload]
      else .error .valueError
  | .text p =>
      match handleText p with
      | .stopCalled => .ok [.stopRec]
      | .noOp => .ok []
      | .ignoredMalformed => .ok [.logMalformed]
      | .raisedAttrError => .error .attrError

/-- The receive loop (`async for message in websocket`): the actions it
performs, and whether an uncaught exception aborted it before the transport
closed. -/
def handlerLoop : List InEvent → List Action × Bool
  | [] => ([], false)
  | e :: rest =>
      match processEvent e with
      | .ok acts => (acts ++ (handlerLoop rest).1, (handlerLoop rest).2)
      | .error _ => ([], true)

/-- The `finally` block of `handler`: cancel the sender task, shut the
recorder down, join the recorder thread with a 2-second timeout. -/
def teardownTrace : List Action :=
  [.cancelSender, .shutdownRec, .joinWorker 2]

/-- The whole `handler`: run the receive loop over the inbound messages (an
uncaught exception aborts it early; otherwise it ends when the transport
closes), then run the `finally` block exactly once. -/
def handler (events : List InEvent) : List Action :=
  (handlerLoop events).1 ++ teardownTrace

/-- The parsed EOS control frame `{"EOS": true}`. -/
def eosEvt : InEvent := .text (some (.jobj [("EOS", .jbool true)]))

/-! ### The Event Queue bridge (producer callbacks / sender task) -/

/-- State of the Event Queue bridge: the messages the callbacks will push (in
generation order), the contents of the `asyncio.Queue`, and the messages the
sender task has already written to the websocket. -/
structure QState where
  pending : List String
  queue : List String
  sent : List String
  deriving DecidableEq

/-- One scheduler step: a producer push (`loop.call_soon_threadsafe` →
`queue.put_nowait`) or a consumer pop-and-send (`await queue.get()` followed
by `websocket.send`). A step whose source is empty suspends, changing
nothing. -/
inductive QStep where
  | push : QStep
  | pop : QStep
  deriving DecidableEq

/-- Transition of one scheduler step on the queue bridge. -/
def qstep : QStep → QState → QState
  | .push, st =>
      match st.pending with
      | [] => st
      | m :: rest => ⟨rest, st.queue ++ [m], st.sent⟩
  | .pop, st =>
      match st.queue with
      | [] => st
      | m :: rest => ⟨st.pending, rest, st.sent ++ [m]⟩

/-- Run a whole schedule of interleaved pushes and pops. -/
def qrun (steps : List QStep) (st : QState) : QState :=
  steps.foldl (fun s sp => qstep sp s) st

/-! ## Helper lemmas -/

theorem trunc_sub_lt (q : ℚ) : |(trunc q : ℚ) - q| < 1 := by
  unfold trunc
  split
  · rename_i h
    rw [abs_sub_lt_iff]
    have h1 := Int.floor_le q
    have h2 := Int.lt_floor_add_one q
    constructor <;> linarith
  · rename_i h
    push_neg at h
    have h1 := Int.floor_le (-q)
    have h2 := Int.lt_floor_add_one (-q)
    rw [abs_sub_lt_iff]
    constructor <;> push_cast <;> linarith

theorem trunc_bounds {c : ℤ} {q : ℚ} (h1 : -(c : ℚ) ≤ q) (h2 : q ≤ (c : ℚ)) :
    -c ≤ trunc q ∧ trunc q ≤ c := by
  unfold trunc
  split
  · rename_i h
    have hc : (0 : ℚ) ≤ (c : ℚ) := le_trans h h2
    have hc' : (0 : ℤ) ≤ c := by exact_mod_cast hc
    have hfl : (0 : ℤ) ≤ ⌊q⌋ := Int.floor_nonneg.mpr h
    have hub : ⌊q⌋ ≤ c := by
      have := Int.floor_le_floor h2
      simpa using this
    omega
  · rename_i h
    push_neg at h
    have h3 : -q ≤ (c : ℚ) := by linarith
    have h4 : (0 : ℚ) ≤ -q := by linarith
    have h5 : ⌊-q⌋ ≤ c := by
      have := Int.floor_le_floor h3
      simpa using this
    have h6 : (0 : ℤ) ≤ ⌊-q⌋ := Int.floor_nonneg.mpr h4
    omega

theorem decode_encode {z : ℤ} (h1 : -32768 ≤ z) (h2 : z ≤ 32767) :
    decode_i16_le (i16_le_bytes z) = z := by
  unfold decode_i16_le i16_le_bytes
  have hm : (0 : ℤ) ≤ z % 65536 := Int.emod_nonneg z (by norm_num)
  have hcast : (((z % 65536).toNat : ℤ)) = z % 65536 := Int.toNat_of_nonneg hm
  push_cast [hcast]
  split <;> omega

theorem adapter_single (s : ℚ) :
    float32_to_int16 [s] = i16_le_bytes (trunc (s * 32767)) := by
  simp [float32_to_int16]

theorem trunc_scale_bounds {s : ℚ} (h1 : -1 ≤ s) (h2 : s ≤ 1) :
    -32767 ≤ trunc (s * 32767) ∧ trunc (s * 32767) ≤ 32767 := by
  have hlo : -((32767 : ℤ) : ℚ) ≤ s * 32767 := by push_cast; nlinarith
  have hhi : s * 32767 ≤ ((32767 : ℤ) : ℚ) := by push_cast; nlinarith
  exact trunc_bounds hlo hhi

/-! ## Claim theorems -/

/-- C1 (amended): for every sample `s` in [-1, 1], the adapter's two-byte
little-endian output decodes to the truncation toward zero of `s * 32767`
(a C-style cast, not `round`), which always fits in the int16 range, so no
overflow beyond standard integer truncation can occur. -/
theorem adapter_truncates_in_range (s : ℚ) (h1 : -1 ≤ s) (h2 : s ≤ 1) :
    decode_i16_le (float32_to_int16 [s]) = trunc (s * 32767) ∧
    -32767 ≤ trunc (s * 32767) ∧ trunc (s * 32767) ≤ 32767 := by
  obtain ⟨hlo, hhi⟩ := trunc_scale_bounds h1 h2
  refine ⟨?_, hlo, hhi⟩
  rw [adapter_single]
  exact decode_encode (by omega) (by omega)

/-- Witness for `adapter_truncates_in_range` at the sample 1/2. -/
theorem adapter_truncates_in_range_witness :
    decode_i16_le (float32_to_int16 [(1 : ℚ)/2]) = trunc ((1 : ℚ)/2 * 32767) ∧
    -32767 ≤ trunc ((1 : ℚ)/2 * 32767) ∧ trunc ((1 : ℚ)/2 * 32767) ≤ 32767 :=
  adapter_truncates_in_range ((1 : ℚ)/2) (by norm_num) (by norm_num)

/-- C1 (counterexample): at the float32-representable sample 2^-15 (inside
[-1, 1]) the code emits the bytes of 0 (truncation of 32767/32768 toward
zero), while the claimed `round(s * 32767)` would emit the bytes of 1; the
adapter does not round. -/
theorem adapter_not_round_counterexample :
    (-1 ≤ (1 : ℚ)/32768 ∧ (1 : ℚ)/32768 ≤ 1) ∧
    float32_to_int16 [(1 : ℚ)/32768] = [0, 0] ∧
    adapt_spec_round [(1 : ℚ)/32768] = [1, 0] ∧
    float32_to_int16 [(1 : ℚ)/32768] ≠ adapt_spec_round [(1 : ℚ)/32768] := by
  have ht : trunc ((1 : ℚ)/32768 * 32767) = 0 := by rw [trunc]; norm_num
  have hr : round ((1 : ℚ)/32768 * 32767) = 1 := by rw [round_eq]; norm_num
  have hspec_single : adapt_spec_round [(1 : ℚ)/32768]
      = i16_le_bytes (round ((1 : ℚ)/32768 * 32767)) := by
    simp [adapt_spec_round]
  have hcode : float32_to_int16 [(1 : ℚ)/32768] = [0, 0] := by
    rw [adapter_single, ht]; decide
  have hspec : adapt_spec_round [(1 : ℚ)/32768] = [1, 0] := by
    rw [hspec_single, hr]; decide
  refine ⟨⟨by norm_num, by norm_num⟩, hcode, hspec, ?_⟩
  rw [hcode, hspec]
  decide

/-- C2: for every sample `s` in [-1, 1], decoding the adapter's output as a
little-endian 16-bit signed integer and dividing by 32767 reproduces `s`
within one quantization step (1/32767). -/
theorem roundtrip_within_quantization (s : ℚ) (h1 : -1 ≤ s) (h2 : s ≤ 1) :
    |((decode_i16_le (float32_to_int16 [s]) : ℚ)) / 32767 - s| ≤ 1 / 32767 := by
  obtain ⟨hlo, hhi⟩ := trunc_scale_bounds h1 h2
  rw [adapter_single, decode_encode (by omega) (by omega)]
  have key : |(trunc (s * 32767) : ℚ) - s * 32767| ≤ 1 := le_of_lt (trunc_sub_lt _)
  have h32 : (0 : ℚ) < 32767 := by norm_num
  calc |((trunc (s * 32767) : ℚ)) / 32767 - s|
      = |(trunc (s * 32767) : ℚ) - s * 32767| / 32767 := by
        rw [show ((trunc (s * 32767) : ℚ)) / 32767 - s
              = ((trunc (s * 32767) : ℚ) - s * 32767) / 32767 by ring,
            abs_div, abs_of_pos h32]
    _ ≤ 1 / 32767 := by gcongr

/-- Witness for `roundtrip_within_quantization` at the sample 1/2. -/
theorem roundtrip_within_quantization_witness :
    |((decode_i16_le (float32_to_int16 [(1 : ℚ)/2]) : ℚ)) / 32767 - (1 : ℚ)/2|
      ≤ 1 / 32767 :=
  roundtrip_within_quantization ((1 : ℚ)/2) (by norm_num) (by norm_num)

theorem mem_strip_of_not_space {l : List Char} {c : Char}
    (hc : c ∈ l) (hns : ¬ pyIsSpace c) :
    c ∈ (l.dropWhile pyIsSpace).reverse.dropWhile pyIsSpace := by
  have h1 : c ∈ l.dropWhile pyIsSpace := by
    have hsplit := List.takeWhile_append_dropWhile (p := pyIsSpace) (l := l)
    rw [← hsplit] at hc
    rcases List.mem_append.mp hc with h | h
    · exact absurd (List.mem_takeWhile_imp h) hns
    · exact h
  have h2 : c ∈ (l.dropWhile pyIsSpace).reverse := List.mem_reverse.mpr h1
  have hsplit2 := List.takeWhile_append_dropWhile (p := pyIsSpace)
    (l := (l.dropWhile pyIsSpace).reverse)
  rw [← hsplit2] at h2
  rcases List.mem_append.mp h2 with h | h
  · exact absurd (List.mem_takeWhile_imp h) hns
  · exact h

theorem pyStrip_empty_iff (s : String) :
    pyStrip s = "" ↔ ∀ c ∈ s.data, pyIsSpace c := by
  constructor
  · intro h c hc
    by_contra hns
    have hmem := mem_strip_of_not_space hc hns
    have hdata : ((s.data.dropWhile pyIsSpace).reverse.dropWhile pyIsSpace).reverse
        = [] := congrArg String.data h
    rw [List.reverse_eq_nil_iff] at hdata
    rw [hdata] at hmem
    exact List.not_mem_nil _ hmem
  · intro h
    unfold pyStrip
    rw [List.dropWhile_eq_nil_iff.mpr h]
    rfl

/-- C8: every message produced by a recorder callback wraps exactly one
segment together with the session's uid; the segment is completed iff its
type is "transcribed", and the envelope's status is "transforming" when
completed and "listening" otherwise. -/
theorem outbound_message_shape (uid segId text : String) (m : OutboundMessage)
    (h : on_realtime_update uid segId text = some m ∨
         on_final_text_callback uid segId text = some m) :
    m.uid = uid ∧ m.segments.length = 1 ∧
    ∀ seg ∈ m.segments,
      ((seg.completed = true ↔ seg.segType = "transcribed") ∧
       m.status = (if seg.completed then "transforming" else "listening")) := by
  rcases h with h | h
  · rw [on_realtime_update] at h
    split at h
    · exact absurd h (by simp)
    · rw [Option.some.injEq] at h
      subst h
      refine ⟨rfl, rfl, ?_⟩
      intro seg hseg
      simp only [send_update_sync, List.mem_singleton] at hseg
      subst hseg
      refine ⟨?_, rfl⟩
      simp only [send_update_sync]
      constructor
      · intro hfalse
        exact absurd hfalse (by decide)
      · intro htype
        exact absurd htype (by decide)
  · rw [on_final_text_callback] at h
    split at h
    · exact absurd h (by simp)
    · rw [Option.some.injEq] at h
      subst h
      refine ⟨rfl, rfl, ?_⟩
      intro seg hseg
      simp only [send_update_sync, List.mem_singleton] at hseg
      subst hseg
      exact ⟨by simp, rfl⟩

/-- Witness for `outbound_message_shape` at a concrete final event. -/
theorem outbound_message_shape_witness :
    (send_update_sync "u" "s" "transcribed" "hi" true).uid = "u" ∧
    (send_update_sync "u" "s" "transcribed" "hi" true).segments.length = 1 ∧
    ∀ seg ∈ (send_update_sync "u" "s" "transcribed" "hi" true).segments,
      ((seg.completed = true ↔ seg.segType = "transcribed") ∧
       (send_update_sync "u" "s" "transcribed" "hi" true).status
         = (if seg.completed then "transforming" else "listening")) :=
  outbound_message_shape "u" "s" "hi" _ (Or.inr (by decide))

/-- C9: a callback invocation whose text is empty or whitespace-only pushes
no event to the queue, and every message a callback does push carries a
segment whose text has at least one non-whitespace character. -/
theorem no_blank_segments (uid segId text : String) :
    ((∀ c ∈ text.data, pyIsSpace c) →
       on_realtime_update uid segId text = none ∧
       on_final_text_callback uid segId text = none) ∧
    (∀ m, (on_realtime_update uid segId text = some m ∨
           on_final_text_callback uid segId text = some m) →
       ∀ seg ∈ m.segments, ∃ c ∈ seg.text.data, ¬ pyIsSpace c) := by
  constructor
  · intro h
    have he : pyStrip text = "" := (pyStrip_empty_iff text).mpr h
    constructor <;> simp [on_realtime_update, on_final_text_callback, he]
  · intro m hm seg hseg
    have main : ¬ pyStrip text = "" ∧ seg.text = text := by
      rcases hm with h | h
      · rw [on_realtime_update] at h
        split at h
        · exact absurd h (by simp)
        · rename_i hne
          rw [Option.some.injEq] at h
          subst h
          simp only [send_update_sync, List.mem_singleton] at hseg
          subst hseg
          exact ⟨hne, rfl⟩
      · rw [on_final_text_callback] at h
        split at h
        · exact absurd h (by simp)
        · rename_i hne
          rw [Option.some.injEq] at h
          subst h
          simp only [send_update_sync, List.mem_singleton] at hseg
          subst hseg
          exact ⟨hne, rfl⟩
    obtain ⟨hne, htext⟩ := main
    rw [htext]
    by_contra hall
    push_neg at hall
    exact hne ((pyStrip_empty_iff text).mpr (by simpa using hall))

/-- Witness for `no_blank_segments`: a whitespace-only text (an ASCII space
followed by the ideographic space U+3000) pushes nothing, and the pushed
message for text "hi" has a non-whitespace character. -/
theorem no_blank_segments_witness :
    on_realtime_update "u" "s" " \u3000" = none ∧
    (∃ c ∈ ("hi" : String).data, ¬ pyIsSpace c) :=
  ⟨((no_blank_segments "u" "s" " \u3000").1 (by decide)).1,
   (no_blank_segments "u" "t" "hi").2 (send_update_sync "u" "t" "inprogress" "hi" false)
     (Or.inl (by decide))
     { segId := "t", segType := "inprogress", text := "hi", completed := false }
     (by decide)⟩

/-- C6 (amended): `recorder.stop()` is invoked iff the text frame parses as a
JSON object whose "EOS" field is Python-truthy — `if data.get("EOS"):` is a
truthiness test, not a comparison with `true`, so e.g. `{"EOS": 1}` also
stops the recording. -/
theorem stop_iff_truthy_eos (p : Option Json) :
    handleText p = TextOutcome.stopCalled ↔
      ∃ fields, p = some (Json.jobj fields) ∧
        truthyOpt (pyDictGet fields "EOS") = true := by
  cases p with
  | none => simp [handleText]
  | some j =>
    cases j with
    | jnull => simp [handleText]
    | jbool b => simp [handleText]
    | jnum q => simp [handleText]
    | jstr s => simp [handleText]
    | jarr elems => simp [handleText]
    | jobj fields =>
        constructor
        · intro h
          refine ⟨fields, rfl, ?_⟩
          by_contra htr
          rw [Bool.not_eq_true] at htr
          simp [handleText, htr] at h
        · rintro ⟨f, heq, htr⟩
          simp only [Option.some.injEq, Json.jobj.injEq] at heq
          subst heq
          simp [handleText, htr]

/-- C6 (counterexample): the text frame `{"EOS": 1}` parses as a JSON object
whose "EOS" field is the number 1, not `true`, yet the truthiness test
`data.get("EOS")` makes the code invoke `recorder.stop()`. -/
theorem stop_on_truthy_counterexample :
    handleText (some (Json.jobj [("EOS", Json.jnum 1)])) = TextOutcome.stopCalled ∧
    pyDictGet [("EOS", Json.jnum 1)] "EOS" = some (Json.jnum 1) ∧
    Json.jnum 1 ≠ Json.jbool true := by
  refine ⟨by decide, rfl, ?_⟩
  intro h
  exact Json.noConfusion h

/-- C5 (code bug): a text frame that is valid JSON but not an object — here
the JSON number 42 — makes `data.get("EOS")` raise `AttributeError`, which
the `except json.JSONDecodeError` clause does not catch: the receive loop
aborts and the session is torn down, a later EOS frame never being processed;
by contrast, genuinely malformed JSON is logged, dropped, and the session
continues. -/
theorem nonobject_json_kills_session :
    handleText (some (Json.jnum 42)) = TextOutcome.raisedAttrError ∧
    handler [InEvent.text (some (Json.jnum 42)), eosEvt] = teardownTrace ∧
    handleText none = TextOutcome.ignoredMalformed ∧
    handler [InEvent.text none, eosEvt]
      = [Action.logMalformed, Action.stopRec] ++ teardownTrace := by
  refine ⟨by decide, by decide, by decide, by decide⟩

theorem qstep_inv (sp : QStep) (st : QState) :
    (qstep sp st).sent ++ ((qstep sp st).queue ++ (qstep sp st).pending)
      = st.sent ++ (st.queue ++ st.pending) := by
  rcases st with ⟨pending, queue, sent⟩
  cases sp
  · cases pending <;> simp [qstep]
  · cases queue <;> simp [qstep]

theorem qrun_inv (steps : List QStep) (st : QState) :
    (qrun steps st).sent ++ ((qrun steps st).queue ++ (qrun steps st).pending)
      = st.sent ++ (st.queue ++ st.pending) := by
  induction steps generalizing st with
  | nil => rfl
  | cons sp rest ih =>
      have hstep : qrun (sp :: rest) st = qrun rest (qstep sp st) := rfl
      rw [hstep, ih, qstep_inv]

/-- C3: with the callbacks pushing `p1..pn` and then the final message, any
interleaving of queue pushes and sender pops writes to the transport a prefix
of `p1..pn ++ [final]`, and once producer and queue have drained, exactly
that sequence in that order — FIFO order is preserved through the queue and
the sender task. -/
theorem fifo_order_preserved (parts : List String) (finalMsg : String)
    (steps : List QStep) :
    (∃ t, (qrun steps ⟨parts ++ [finalMsg], [], []⟩).sent ++ t
            = parts ++ [finalMsg]) ∧
    ((qrun steps ⟨parts ++ [finalMsg], [], []⟩).pending = [] →
     (qrun steps ⟨parts ++ [finalMsg], [], []⟩).queue = [] →
     (qrun steps ⟨parts ++ [finalMsg], [], []⟩).sent = parts ++ [finalMsg]) := by
  have hinv := qrun_inv steps ⟨parts ++ [finalMsg], [], []⟩
  simp only [List.nil_append] at hinv
  constructor
  · exact ⟨_, hinv⟩
  · intro hp hq
    rw [hp, hq] at hinv
    simpa using hinv

/-- Witness for `fifo_order_preserved`: two partials and a final, pushed and
drained; the transport sees exactly that order. -/
theorem fifo_order_preserved_witness :
    (qrun [QStep.push, QStep.push, QStep.push, QStep.pop, QStep.pop, QStep.pop]
       ⟨["p1", "p2"] ++ ["f"], [], []⟩).sent = ["p1", "p2"] ++ ["f"] :=
  (fifo_order_preserved ["p1", "p2"] "f"
      [QStep.push, QStep.push, QStep.push, QStep.pop, QStep.pop, QStep.pop]).2
    (by decide) (by decide)

theorem processEvent_actions {e : InEvent} {acts : List Action}
    (h : processEvent e = .ok acts) {a : Action} (ha : a ∈ acts) :
    (∃ p, a = .fedAudio p) ∨ a = .stopRec ∨ a = .logMalformed := by
  cases e with
  | bin payload =>
      rw [processEvent] at h
      split at h
      · rw [Except.ok.injEq] at h
        subst h
        rw [List.mem_singleton] at ha
        exact Or.inl ⟨payload, ha⟩
      · exact absurd h (by simp)
  | text p =>
      rw [processEvent] at h
      cases hh : handleText p
      case stopCalled =>
        rw [hh, Except.ok.injEq] at h
        subst h
        rw [List.mem_singleton] at ha
        exact Or.inr (Or.inl ha)
      case noOp =>
        rw [hh, Except.ok.injEq] at h
        subst h
        exact absurd ha (List.not_mem_nil _)
      case ignoredMalformed =>
        rw [hh, Except.ok.injEq] at h
        subst h
        rw [List.mem_singleton] at ha
        exact Or.inr (Or.inr ha)
      case raisedAttrError =>
        rw [hh] at h
        exact absurd h (by simp)

theorem handlerLoop_actions (events : List InEvent) (a : Action)
    (ha : a ∈ (handlerLoop events).1) :
    (∃ p, a = .fedAudio p) ∨ a = .stopRec ∨ a = .logMalformed := by
  induction events with
  | nil => exact absurd ha (by simp [handlerLoop])
  | cons e rest ih =>
      rw [handlerLoop] at ha
      cases hpe : processEvent e with
      | error err =>
          rw [hpe] at ha
          exact absurd ha (by simp)
      | ok acts =>
          rw [hpe] at ha
          simp only [] at ha
          rcases List.mem_append.mp ha with h | h
          · exact processEvent_actions hpe h
          · exact ih h

/-- C7: whatever the inbound stream does — normal close, uncaught exception
(bad frame or non-dict JSON), or EOS followed by close — the `finally`
teardown (cancel the sender task, `recorder.shutdown()`, join the worker
thread with a 2-second timeout) runs exactly once, as the final suffix of the
session's action trace, and never earlier. -/
theorem teardown_exactly_once (events : List InEvent) :
    (handler events).count Action.cancelSender = 1 ∧
    (handler events).count Action.shutdownRec = 1 ∧
    (handler events).count (Action.joinWorker 2) = 1 ∧
    ∃ pre, handler events = pre ++ teardownTrace ∧
      Action.cancelSender ∉ pre ∧ Action.shutdownRec ∉ pre ∧
      ∀ n, Action.joinWorker n ∉ pre := by
  have hnc : Action.cancelSender ∉ (handlerLoop events).1 := by
    intro h
    rcases handlerLoop_actions events _ h with ⟨p, hp⟩ | hp | hp <;> simp at hp
  have hns : Action.shutdownRec ∉ (handlerLoop events).1 := by
    intro h
    rcases handlerLoop_actions events _ h with ⟨p, hp⟩ | hp | hp <;> simp at hp
  have hnj : ∀ n, Action.joinWorker n ∉ (handlerLoop events).1 := by
    intro n h
    rcases handlerLoop_actions events _ h with ⟨p, hp⟩ | hp | hp <;> simp at hp
  refine ⟨?_, ?_, ?_, (handlerLoop events).1, rfl, hnc, hns, hnj⟩
  · rw [handler, List.count_append, List.count_eq_zero.mpr hnc]
    decide
  · rw [handler, List.count_append, List.count_eq_zero.mpr hns]
    decide
  · rw [handler, List.count_append, List.count_eq_zero.mpr (hnj 2)]
    decide

/-- C4 (counterexample): processing exactly the EOS frame while the transport
stays open performs only `recorder.stop()`: the sender task (Delivery Loop)
is not cancelled, the recorder (Worker) is not shut down, and the teardown
that closes the session has not run — so nothing terminates after the final
delivery that `stop()` induces. -/
theorem eos_alone_terminates_nothing :
    handlerLoop [eosEvt] = ([Action.stopRec], false) ∧
    Action.cancelSender ∉ (handlerLoop [eosEvt]).1 ∧
    Action.shutdownRec ∉ (handlerLoop [eosEvt]).1 := by
  refine ⟨by decide, by decide, by decide⟩

/-- C4 (amended): after the EOS control frame, `recorder.stop()` is invoked
(forcing finalization of the current utterance); the Delivery Loop and the
Worker are torn down only when the transport closes, at which point the
`finally` block cancels the sender task, calls `recorder.shutdown()` and
joins the worker thread with a 2-second timeout. -/
theorem eos_then_close_trace :
    handler [eosEvt]
      = [Action.stopRec, Action.cancelSender, Action.shutdownRec,
         Action.joinWorker 2] := by
  decide

/-- C10: a binary frame whose byte length is not a multiple of 4 (the float32
item size) makes `np.frombuffer` raise `ValueError`: `feed_audio` is not
called for that frame, the receive loop aborts (the rest of the inbound
stream is never processed), and the session goes straight to teardown. -/
theorem bad_binary_frame_aborts (payload : List ℕ) (rest : List InEvent)
    (h : payload.length % 4 ≠ 0) :
    handlerLoop (InEvent.bin payload :: rest) = ([], true) ∧
    handler (InEvent.bin payload :: rest) = teardownTrace ∧
    ∀ raw, Action.fedAudio raw ∉ handler (InEvent.bin payload :: rest) := by
  have hpe : processEvent (InEvent.bin payload) = .error .valueError := by
    rw [processEvent, if_neg h]
  have h1 : handlerLoop (InEvent.bin payload :: rest) = ([], true) := by
    rw [handlerLoop, hpe]
  refine ⟨h1, ?_, ?_⟩
  · rw [handler, h1]
    rfl
  · intro raw hmem
    rw [handler, h1] at hmem
    simp [teardownTrace] at hmem

/-- Witness for `bad_binary_frame_aborts`: a 5-byte frame followed by an EOS
frame; the EOS is never processed and the trace is teardown only. -/
theorem bad_binary_frame_aborts_witness :
    handler [InEvent.bin [0, 0, 0, 0, 0], eosEvt] = teardownTrace :=
  (bad_binary_frame_aborts [0, 0, 0, 0, 0] [eosEvt] (by decide)).2.1

end WhisperMac
